import Mathlib

/-
Verification of the setlist-book pagination core of gd-journal.

Shallow embedding of the two source variants:
  * src/book/classes.py   — count-based partitioner `to_page_friendly_set_groupings`
                            and the classifier derived from it;
  * src/book/generate.py  — metric-based height estimator, threshold classifier,
                            and the Algorithm-A split `find_split_point`.

All Python arithmetic involved is over non-negative integers (song counts,
character counts, the typography constants), so the embedding uses `Nat`.
The floating-point products appearing in the sources — `500 * 0.92`,
`500 * 1.08`, `500 * 0.95` — are exactly `460.0`, `540.0` and `475.0` as IEEE
doubles, and every estimated height is an exact integer-valued double, so the
float comparisons of the sources coincide with the integer comparisons used
here.
-/

namespace Book

/-- A musical set (src/book/classes.py lines 12-25; src/book/generate.py lines
49-62 declares the same fields).  `label`, ` annotation` and `songs` mirror the
dataclass fields; defaults mirror the dataclass defaults. -/
structure Set where
  label : String := ""
  annotation : Option String := none
  songs : List String := []
deriving DecidableEq

/-- `Set.__len__` (classes.py lines 24-25, generate.py lines 55-56): the number
of songs in the set. -/
def Set.len (s : Set) : Nat := s.songs.length

namespace Classes

/-- `LayoutType` of src/book/classes.py lines 7-9. -/
inductive LayoutType where
  | SINGLE
  | SPREAD
deriving DecidableEq

/-- `Show` of src/book/classes.py lines 28-37. -/
structure Show where
  date : String := ""
  further_id : String := ""
  venue1 : String := ""
  venue2 : Option String := none
  city : String := ""
  state_or_country : String := ""
  notes : Option String := none
  sets : List Set := []
deriving DecidableEq

/-- The page-count simulation of `to_page_friendly_set_groupings`
(classes.py lines 80-87): the loop body carries the page counter and the
running line count. -/
def num_pagesAux : List Set → Nat → Nat → Nat
  | [], numPages, _ => numPages
  | s :: rest, numPages, currLines =>
    if currLines + s.len ≥ 20 then num_pagesAux rest (numPages + 1) s.len
    else num_pagesAux rest numPages (currLines + s.len)

/-- The value of the local `num_pages` after the simulation loop
(classes.py lines 80-87), as a function of the sets list. -/
def num_pages (sets : List Set) : Nat := num_pagesAux sets 1 0

/-- `num_songs = sum(len(s) for s in self.sets)` (classes.py line 93); the same
expression is used for the running group total on line 114. -/
def num_songs (sets : List Set) : Nat := (sets.map Set.len).sum

/-- `songs_per_page = (num_songs + 1) // num_pages` (classes.py line 94). -/
def songs_per_page (sets : List Set) : Nat :=
  (num_songs sets + 1) / num_pages sets

/-- The inner pull loop of `to_page_friendly_set_groupings`
(classes.py lines 109-119).  `group` is the group under construction
(`ret[-1]`), `currSongs` the cumulative placed-song counter, and the list
argument the sets not yet placed (`self.sets[next:]`).  Returns the finished
group, the updated counter, and the still-unplaced sets.  The source checks
the while-condition before the exhaustion break; when no sets remain both
orders return the same triple, so the match is lifted outermost here to make
the recursion structural. -/
def innerLoop (spp currPage : Nat) (group : List Set) (currSongs : Nat) :
    List Set → List Set × Nat × List Set
  | [] => (group, currSongs, [])
  | s :: rest' =>
    if spp * currPage > currSongs + 5 then
      if num_songs group + s.len > 20 then (group, currSongs, s :: rest')
      else innerLoop spp currPage (group ++ [s]) (currSongs + s.len) rest'
    else (group, currSongs, s :: rest')

/-- The outer page loop of `to_page_friendly_set_groupings`
(classes.py lines 100-119): one iteration per `curr_page` in
`range(1, num_pages + 1)`, breaking when no sets remain; each iteration seeds
a fresh group with the next set and runs the pull loop.  The first argument
counts the pages still to iterate (`num_pages + 1 - curr_page`), so the
recursion is structural; `currPage` carries the Python loop variable.
Returns the built groups and the unplaced sets. -/
def outerLoopAux (spp : Nat) :
    Nat → Nat → Nat → List Set → List (List Set) → List (List Set) × List Set
  | 0, _, _, rest, ret => (ret, rest)
  | pagesLeft + 1, currPage, currSongs, rest, ret =>
    match rest with
    | [] => (ret, [])
    | s :: rest' =>
      let r := innerLoop spp currPage [s] (currSongs + s.len) rest'
      outerLoopAux spp pagesLeft (currPage + 1) r.2.1 r.2.2 (ret ++ [r.1])

/-- The outer loop started as in the source: `curr_page = 1`,
`curr_songs = 0`, no groups built, all sets unplaced. -/
def outerLoop (spp numPages : Nat) (sets : List Set) :
    List (List Set) × List Set :=
  outerLoopAux spp numPages 1 0 sets []

/-- `ret[-1].append(s)` (classes.py line 124): append a set to the last group.
The `[]` case cannot occur at the call site (the trailing loop only runs with a
nonempty `ret`); Python would raise `IndexError` there. -/
def appendLast : List (List Set) → Set → List (List Set)
  | [], s => [[s]]
  | [g], s => [g ++ [s]]
  | g :: ret, s => g :: appendLast ret s

/-- The trailing-remainder absorption loop of `to_page_friendly_set_groupings`
(classes.py lines 121-125): while sets remain, open a fresh group when fewer
than `num_pages` groups exist, and put the next set into the last group. -/
def trailingLoop (numPages : Nat) (ret : List (List Set)) :
    List Set → List (List Set)
  | [] => ret
  | s :: rest =>
    if ret.length < numPages then trailingLoop numPages (ret ++ [[s]]) rest
    else trailingLoop numPages (appendLast ret s) rest

/-- `Show.to_page_friendly_set_groupings` (classes.py lines 79-127). -/
def to_page_friendly_set_groupings (sh : Show) : List (List Set) :=
  if num_pages sh.sets = 1 then [sh.sets]
  else
    let r := outerLoop (songs_per_page sh.sets) (num_pages sh.sets) sh.sets
    trailingLoop (num_pages sh.sets) r.1 r.2

/-- `Show.classify_layout` (classes.py lines 129-131): derived from the
grouping. -/
def classify_layout (sh : Show) : LayoutType :=
  if (to_page_friendly_set_groupings sh).length > 1 then LayoutType.SPREAD
  else LayoutType.SINGLE

end Classes

namespace Generate

/-- Page geometry constant (src/book/generate.py line 31). -/
def PAGE_CONTENT_HEIGHT : Nat := 500
/-- Typography constant (generate.py line 35). -/
def HEADER_HEIGHT : Nat := 65
/-- Typography constant (generate.py line 36). -/
def NOTES_BASE_HEIGHT : Nat := 25
/-- Typography constant (generate.py line 37). -/
def NOTES_CHARS_PER_LINE : Nat := 55
/-- Typography constant (generate.py line 38). -/
def LINE_HEIGHT : Nat := 18
/-- Typography constant (generate.py line 39). -/
def SET_LABEL_HEIGHT : Nat := 22
/-- Typography constant (generate.py line 40). -/
def SET_GAP : Nat := 12

/-- `LayoutType` of src/book/generate.py lines 43-46. -/
inductive LayoutType where
  | SINGLE
  | COMPACT
  | SPREAD
deriving DecidableEq

/-- `Set.estimate_height` (generate.py lines 58-62).  The Python value is a
float, but it is an exact small integer, so `Nat` is exact. -/
def estimate_height (s : Set) : Nat :=
  SET_LABEL_HEIGHT + s.songs.length * LINE_HEIGHT

/-- `Show` of src/book/generate.py lines 65-73 (no `further_id` field in this
variant). -/
structure Show where
  date : String := ""
  venue1 : String := ""
  venue2 : Option String := none
  city : String := ""
  state_or_country : String := ""
  notes : Option String := none
  sets : List Set := []
deriving DecidableEq

/-- `Show.estimate_header_height` (generate.py lines 104-111).  Python's
`if self.notes:` is false both for `None` and for the empty string. -/
def estimate_header_height (sh : Show) : Nat :=
  match sh.notes with
  | none => HEADER_HEIGHT
  | some notes =>
    if notes.length = 0 then HEADER_HEIGHT
    else
      let note_lines := max 1 (notes.length / NOTES_CHARS_PER_LINE + 1)
      HEADER_HEIGHT + NOTES_BASE_HEIGHT + (note_lines - 1) * LINE_HEIGHT

/-- The set-summation loop of `Show.estimate_total_height`
(generate.py lines 116-119): each set's height, plus `SET_GAP` after every set
except the last. -/
def sets_height : List Set → Nat
  | [] => 0
  | [s] => estimate_height s
  | s :: rest => estimate_height s + SET_GAP + sets_height rest

/-- `Show.estimate_total_height` (generate.py lines 113-120). -/
def estimate_total_height (sh : Show) : Nat :=
  estimate_header_height sh + sets_height sh.sets

/-- `Show.classify_layout` (generate.py lines 122-136).  The source compares
floats against `PAGE_CONTENT_HEIGHT * 0.92` and `* 1.08`; those doubles are
exactly `460.0` and `540.0` and every height is integer-valued, so the `Nat`
comparisons below are exact. -/
def classify_layout (sh : Show) : LayoutType :=
  if estimate_total_height sh ≤ PAGE_CONTENT_HEIGHT * 92 / 100 then
    LayoutType.SINGLE
  else if estimate_total_height sh ≤ PAGE_CONTENT_HEIGHT * 108 / 100 then
    LayoutType.COMPACT
  else LayoutType.SPREAD

/-- The accumulation loop of `Show.find_split_point`
(generate.py lines 156-165): walk the sets with index `i`, adding each set's
height (plus `SET_GAP` for `i > 0`) while the running total stays within
`page_budget * 0.95` (exactly `475.0` as a double, hence the exact `Nat`
comparison); `split_after` records `i + 1` for the last set that fit. -/
def splitLoop : List Set → Nat → Nat → Nat → Nat
  | [], _, _, split_after => split_after
  | s :: rest, i, cum, split_after =>
    let set_height := estimate_height s + (if i > 0 then SET_GAP else 0)
    if cum + set_height ≤ PAGE_CONTENT_HEIGHT * 95 / 100 then
      splitLoop rest (i + 1) (cum + set_height) (i + 1)
    else split_after

/-- `Show.find_split_point` (generate.py lines 138-173). -/
def find_split_point (sh : Show) : Nat :=
  if sh.sets.length ≤ 1 then 1
  else
    let split_after := splitLoop sh.sets 0 (estimate_header_height sh) 0
    let split_after := if split_after = 0 then 1 else split_after
    if split_after ≥ sh.sets.length then sh.sets.length - 1 else split_after

/-- The page partition induced by the split point in `render_show_spread`
(generate.py lines 328-330): `sets_page1 = sets[:split]`,
`sets_page2 = sets[split:]`. -/
def spread_groups (sh : Show) : List (List Set) :=
  [sh.sets.take (find_split_point sh), sh.sets.drop (find_split_point sh)]

end Generate

/-! Concrete inputs used by the witnesses and counterexamples below. -/

/-- A set with `n` identical songs (the partitioner and estimator only look at
the song count). -/
def mkSet (n : Nat) : Set := { label := "1", songs := List.replicate n "song" }

/-- A classes.py `Show` whose sets have the given song counts. -/
def mkShow (ns : List Nat) : Classes.Show := { sets := ns.map mkSet }

/-- A generate.py `Show` whose sets have the given song counts. -/
def mkGShow (ns : List Nat) : Generate.Show := { sets := ns.map mkSet }

/-- A 55-character notes string (an exact multiple of
`NOTES_CHARS_PER_LINE`). -/
def exNotesC9 : String := String.mk (List.replicate 55 'a')

/-- A generate.py `Show` carrying the 55-character notes. -/
def exShowC9 : Generate.Show := { notes := some exNotesC9, sets := [mkSet 1] }

namespace Classes

/-! Structure lemmas about the partitioner's loops. -/

theorem innerLoop_fst_append (spp currPage : Nat) (group : List Set)
    (currSongs : Nat) (rest : List Set) :
    (innerLoop spp currPage group currSongs rest).1 ++
      (innerLoop spp currPage group currSongs rest).2.2 = group ++ rest := by
  induction rest generalizing group currSongs with
  | nil => simp [innerLoop]
  | cons s rest ih =>
    by_cases hc : spp * currPage > currSongs + 5
    · by_cases hb : num_songs group + s.len > 20
      · simp [innerLoop, hc, hb]
      · simp only [innerLoop, if_pos hc, if_neg hb]
        rw [ih]
        simp
    · simp [innerLoop, hc]

theorem innerLoop_fst_ne_nil (spp currPage : Nat) (group : List Set)
    (currSongs : Nat) (rest : List Set) (h : group ≠ []) :
    (innerLoop spp currPage group currSongs rest).1 ≠ [] := by
  induction rest generalizing group currSongs with
  | nil => simpa [innerLoop]
  | cons s rest ih =>
    by_cases hc : spp * currPage > currSongs + 5
    · by_cases hb : num_songs group + s.len > 20
      · simpa [innerLoop, hc, hb]
      · simp only [innerLoop, if_pos hc, if_neg hb]
        exact ih _ _ (by simp)
    · simpa [innerLoop, hc]

theorem num_songs_append (a b : List Set) :
    num_songs (a ++ b) = num_songs a + num_songs b := by
  simp [num_songs]

theorem innerLoop_fst_bound (spp currPage : Nat) (group : List Set)
    (currSongs : Nat) (rest : List Set)
    (h : num_songs group ≤ 20 ∨ ∃ s ∈ group, 20 < s.len) :
    num_songs (innerLoop spp currPage group currSongs rest).1 ≤ 20 ∨
      ∃ s ∈ (innerLoop spp currPage group currSongs rest).1, 20 < s.len := by
  induction rest generalizing group currSongs with
  | nil => simpa [innerLoop]
  | cons s rest ih =>
    by_cases hc : spp * currPage > currSongs + 5
    · by_cases hb : num_songs group + s.len > 20
      · simpa [innerLoop, hc, hb]
      · simp only [innerLoop, if_pos hc, if_neg hb]
        apply ih
        left
        rw [num_songs_append]
        have : num_songs [s] = s.len := by simp [num_songs]
        omega
    · simpa [innerLoop, hc]

theorem outerLoopAux_flatten (spp fuel currPage currSongs : Nat)
    (rest : List Set) (ret : List (List Set)) :
    (outerLoopAux spp fuel currPage currSongs rest ret).1.flatten ++
      (outerLoopAux spp fuel currPage currSongs rest ret).2 =
    ret.flatten ++ rest := by
  induction fuel generalizing currPage currSongs rest ret with
  | zero => simp [outerLoopAux]
  | succ n ih =>
    cases rest with
    | nil => simp [outerLoopAux]
    | cons s rest' =>
      simp only [outerLoopAux]
      rw [ih]
      have h2 := innerLoop_fst_append spp currPage [s] (currSongs + s.len) rest'
      simp only [List.flatten_append, List.flatten_cons, List.flatten_nil,
        List.append_nil, List.append_assoc]
      rw [h2]
      simp

theorem outerLoopAux_fst_ne_nil (spp fuel currPage currSongs : Nat)
    (rest : List Set) (ret : List (List Set)) (h : ∀ g ∈ ret, g ≠ []) :
    ∀ g ∈ (outerLoopAux spp fuel currPage currSongs rest ret).1, g ≠ [] := by
  induction fuel generalizing currPage currSongs rest ret with
  | zero => simpa [outerLoopAux]
  | succ n ih =>
    cases rest with
    | nil => simpa [outerLoopAux]
    | cons s rest' =>
      simp only [outerLoopAux]
      apply ih
      intro g hg
      rcases List.mem_append.1 hg with h1 | h1
      · exact h g h1
      · simp only [List.mem_singleton] at h1
        subst h1
        exact innerLoop_fst_ne_nil _ _ _ _ _ (by simp)

theorem outerLoopAux_fst_bound (spp fuel currPage currSongs : Nat)
    (rest : List Set) (ret : List (List Set))
    (h : ∀ g ∈ ret, num_songs g ≤ 20 ∨ ∃ s ∈ g, 20 < s.len) :
    ∀ g ∈ (outerLoopAux spp fuel currPage currSongs rest ret).1,
      num_songs g ≤ 20 ∨ ∃ s ∈ g, 20 < s.len := by
  induction fuel generalizing currPage currSongs rest ret with
  | zero => simpa [outerLoopAux]
  | succ n ih =>
    cases rest with
    | nil => simpa [outerLoopAux]
    | cons s rest' =>
      simp only [outerLoopAux]
      apply ih
      intro g hg
      rcases List.mem_append.1 hg with h1 | h1
      · exact h g h1
      · simp only [List.mem_singleton] at h1
        subst h1
        apply innerLoop_fst_bound
        by_cases hs : s.len ≤ 20
        · left
          simpa [num_songs]
        · right
          exact ⟨s, by simp, by omega⟩

theorem appendLast_flatten (ret : List (List Set)) (s : Set) :
    (appendLast ret s).flatten = ret.flatten ++ [s] := by
  induction ret with
  | nil => simp [appendLast]
  | cons g ret ih =>
    cases ret with
    | nil => simp [appendLast]
    | cons g' ret' =>
      simp only [appendLast, List.flatten_cons, ih]
      simp

theorem appendLast_ne_nil (ret : List (List Set)) (s : Set) :
    appendLast ret s ≠ [] := by
  cases ret with
  | nil => simp [appendLast]
  | cons g ret => cases ret <;> simp [appendLast]

theorem appendLast_length (ret : List (List Set)) (s : Set) (h : ret ≠ []) :
    (appendLast ret s).length = ret.length := by
  induction ret with
  | nil => simp at h
  | cons g ret ih =>
    cases ret with
    | nil => simp [appendLast]
    | cons g' ret' =>
      simp only [appendLast, List.length_cons]
      rw [ih (by simp)]
      simp

theorem appendLast_mem_ne_nil (ret : List (List Set)) (s : Set)
    (h : ∀ g ∈ ret, g ≠ []) : ∀ g ∈ appendLast ret s, g ≠ [] := by
  induction ret with
  | nil => simp [appendLast]
  | cons g ret ih =>
    cases ret with
    | nil =>
      intro x hx
      simp only [appendLast, List.mem_singleton] at hx
      subst hx
      simp
    | cons g' ret' =>
      intro x hx
      simp only [appendLast, List.mem_cons] at hx
      rcases hx with hx | hx
      · exact hx ▸ h g (by simp)
      · exact ih (fun y hy => h y (by simp [List.mem_cons] at hy ⊢; tauto)) x hx

theorem trailingLoop_flatten (numPages : Nat) (ret : List (List Set))
    (rest : List Set) :
    (trailingLoop numPages ret rest).flatten = ret.flatten ++ rest := by
  induction rest generalizing ret with
  | nil => simp [trailingLoop]
  | cons s rest ih =>
    by_cases hl : ret.length < numPages
    · simp only [trailingLoop, if_pos hl]
      rw [ih]
      simp
    · simp only [trailingLoop, if_neg hl]
      rw [ih, appendLast_flatten]
      simp

theorem trailingLoop_mem_ne_nil (numPages : Nat) (ret : List (List Set))
    (rest : List Set) (h : ∀ g ∈ ret, g ≠ []) :
    ∀ g ∈ trailingLoop numPages ret rest, g ≠ [] := by
  induction rest generalizing ret with
  | nil => simpa [trailingLoop]
  | cons s rest ih =>
    by_cases hl : ret.length < numPages
    · simp only [trailingLoop, if_pos hl]
      apply ih
      intro g hg
      rcases List.mem_append.1 hg with h1 | h1
      · exact h g h1
      · simp only [List.mem_singleton] at h1
        subst h1
        simp
    · simp only [trailingLoop, if_neg hl]
      exact ih _ (appendLast_mem_ne_nil _ _ h)

theorem appendLast_dropLast (ret : List (List Set)) (s : Set) (h : ret ≠ []) :
    (appendLast ret s).dropLast = ret.dropLast := by
  induction ret with
  | nil => simp at h
  | cons g ret ih =>
    cases ret with
    | nil => simp [appendLast]
    | cons g' ret' =>
      obtain ⟨a, t, he⟩ : ∃ a t, appendLast (g' :: ret') s = a :: t := by
        cases ret' <;> simp [appendLast]
      simp only [appendLast]
      rw [he, List.dropLast_cons₂, ← he, ih (by simp), List.dropLast_cons₂]

/-- Phase two of the trailing loop: once `ret` has reached `numPages` groups,
every further set is appended to the last group, so all groups but the last
are left untouched. -/
theorem trailingLoop_dropLast_stable (numPages : Nat) (ret : List (List Set))
    (rest : List Set) (hnp : 1 ≤ numPages) (hl : ¬ ret.length < numPages) :
    (trailingLoop numPages ret rest).dropLast = ret.dropLast := by
  induction rest generalizing ret with
  | nil => simp [trailingLoop]
  | cons s rest ih =>
    have hne : ret ≠ [] := by
      intro he
      subst he
      simp at hl
      omega
    simp only [trailingLoop, if_neg hl]
    rw [ih _ (by rw [appendLast_length _ _ hne]; exact hl)]
    exact appendLast_dropLast _ _ hne

/-- Every group of the trailing loop's output except possibly the last one
satisfies the 20-song ceiling (or contains an oversized set), provided all
incoming groups do. -/
theorem trailingLoop_dropLast_bound (numPages : Nat) (ret : List (List Set))
    (rest : List Set) (hnp : 1 ≤ numPages)
    (h : ∀ g ∈ ret, num_songs g ≤ 20 ∨ ∃ s ∈ g, 20 < s.len) :
    ∀ g ∈ (trailingLoop numPages ret rest).dropLast,
      num_songs g ≤ 20 ∨ ∃ s ∈ g, 20 < s.len := by
  induction rest generalizing ret with
  | nil =>
    intro g hg
    exact h g (List.dropLast_subset _ (by simpa [trailingLoop] using hg))
  | cons s rest ih =>
    by_cases hl : ret.length < numPages
    · simp only [trailingLoop, if_pos hl]
      apply ih
      intro g hg
      rcases List.mem_append.1 hg with h1 | h1
      · exact h g h1
      · simp only [List.mem_singleton] at h1
        subst h1
        by_cases hs : s.len ≤ 20
        · left
          simpa [num_songs]
        · right
          exact ⟨s, by simp, by omega⟩
    · simp only [trailingLoop, if_neg hl]
      intro g hg
      rw [trailingLoop_dropLast_stable _ _ _ hnp
        (by
          have hne : ret ≠ [] := by
            intro he
            subst he
            simp at hl
            omega
          rw [appendLast_length _ _ hne]
          exact hl)] at hg
      have hne : ret ≠ [] := by
        intro he
        subst he
        simp at hl
        omega
      rw [appendLast_dropLast _ _ hne] at hg
      exact h g (List.dropLast_subset _ hg)

/-- A list of nonempty groups has no more groups than total elements. -/
theorem length_le_flatten_length (L : List (List Set))
    (h : ∀ g ∈ L, g ≠ []) : L.length ≤ L.flatten.length := by
  induction L with
  | nil => simp
  | cons g L ih =>
    simp only [List.flatten_cons, List.length_cons, List.length_append]
    have h1 : 1 ≤ g.length := by
      have hg := h g (by simp)
      cases g
      · simp at hg
      · simp
    have h2 := ih (fun x hx => h x (by simp [hx]))
    omega

/-- The page-count simulation never decreases the page counter. -/
theorem le_num_pagesAux (L : List Set) (n c : Nat) : n ≤ num_pagesAux L n c := by
  induction L generalizing n c with
  | nil => simp [num_pagesAux]
  | cons s L ih =>
    simp only [num_pagesAux]
    split
    · exact le_trans (Nat.le_succ n) (ih _ _)
    · exact ih _ _

/-- The groups of the partitioner concatenate, in order, to the original sets
sequence (no hypothesis needed: with zero sets both sides are the empty
sequence). -/
theorem flatten_groupings (sh : Show) :
    (to_page_friendly_set_groupings sh).flatten = sh.sets := by
  unfold to_page_friendly_set_groupings
  split
  · simp
  · rw [trailingLoop_flatten]
    have h := outerLoopAux_flatten (songs_per_page sh.sets) (num_pages sh.sets)
      1 0 sh.sets []
    unfold outerLoop
    simpa using h

/-- C1: for every Show with at least one Set, concatenating the groups
returned by `to_page_friendly_set_groupings` in order yields exactly the
Show's original sets sequence — every Set in exactly one group, original
order, no duplicates, no omissions, each group a contiguous sub-sequence. -/
theorem to_page_friendly_flatten_eq (sh : Show) (_h : sh.sets ≠ []) :
    (to_page_friendly_set_groupings sh).flatten = sh.sets :=
  flatten_groupings sh

/-- Witness for C1 at a Show with set sizes `[5, 18, 1]`. -/
theorem to_page_friendly_flatten_eq_witness :
    (mkShow [5, 18, 1]).sets ≠ [] ∧
    (to_page_friendly_set_groupings (mkShow [5, 18, 1])).flatten =
      (mkShow [5, 18, 1]).sets :=
  ⟨by decide, to_page_friendly_flatten_eq (mkShow [5, 18, 1]) (by decide)⟩

/-- C7: for every Show with at least one Set, no group of
`to_page_friendly_set_groupings` is empty, and hence the number of groups
never exceeds the number of Sets. -/
theorem groups_nonempty_and_count_le (sh : Show) (h : sh.sets ≠ []) :
    (∀ g ∈ to_page_friendly_set_groupings sh, g ≠ []) ∧
    (to_page_friendly_set_groupings sh).length ≤ sh.sets.length := by
  have hne : ∀ g ∈ to_page_friendly_set_groupings sh, g ≠ [] := by
    unfold to_page_friendly_set_groupings
    split
    · intro g hg
      simp only [List.mem_singleton] at hg
      subst hg
      exact h
    · apply trailingLoop_mem_ne_nil
      exact outerLoopAux_fst_ne_nil _ _ _ _ _ _ (by simp)
  refine ⟨hne, ?_⟩
  have hlen := length_le_flatten_length _ hne
  rwa [flatten_groupings] at hlen

/-- Witness for C7 at a Show with set sizes `[5, 18, 1]`. -/
theorem groups_nonempty_and_count_le_witness :
    (mkShow [5, 18, 1]).sets ≠ [] ∧
    ((∀ g ∈ to_page_friendly_set_groupings (mkShow [5, 18, 1]), g ≠ []) ∧
      (to_page_friendly_set_groupings (mkShow [5, 18, 1])).length ≤
        (mkShow [5, 18, 1]).sets.length) :=
  ⟨by decide, groups_nonempty_and_count_le (mkShow [5, 18, 1]) (by decide)⟩

/-- Counterexample to C3: in the Show with set sizes `[11, 2, 19]` every Set
has at most 20 songs, yet the partitioner produces a group (the final one,
holding the last two Sets, 21 songs) whose total exceeds 20: the
trailing-remainder absorption step appends leftover Sets to the last group
without a ceiling check. -/
theorem balance_bound_last_group_cex :
    (∀ s ∈ (mkShow [11, 2, 19]).sets, s.len ≤ 20) ∧
    ∃ g ∈ to_page_friendly_set_groupings (mkShow [11, 2, 19]),
      20 < num_songs g := by decide

/-- C3 (amended): every group of `to_page_friendly_set_groupings` except
possibly the final one exceeds 20 songs only if a single Set it contains
already exceeds 20 by itself; the final group may exceed the ceiling because
the trailing-remainder absorption step appends leftover Sets without a
ceiling check. -/
theorem balance_bound_except_last (sh : Show) (g : List Set)
    (hg : g ∈ (to_page_friendly_set_groupings sh).dropLast) :
    num_songs g ≤ 20 ∨ ∃ s ∈ g, 20 < s.len := by
  revert hg
  unfold to_page_friendly_set_groupings
  split
  · intro hg
    simp at hg
  · intro hg
    have h1 : 1 ≤ num_pages sh.sets := le_num_pagesAux sh.sets 1 0
    exact trailingLoop_dropLast_bound _ _ _ h1
      (outerLoopAux_fst_bound _ _ _ _ _ _ (by simp)) g hg

/-- Witness for the amended C3 at the Show with set sizes `[11, 2, 19]`. -/
theorem balance_bound_except_last_witness :
    [mkSet 11] ∈ (to_page_friendly_set_groupings (mkShow [11, 2, 19])).dropLast ∧
    (num_songs [mkSet 11] ≤ 20 ∨ ∃ s ∈ [mkSet 11], 20 < s.len) :=
  ⟨by decide, balance_bound_except_last (mkShow [11, 2, 19]) [mkSet 11] (by decide)⟩

/-- C5: a Show with exactly 3 Sets of song counts `[5, 18, 1]` partitions into
exactly 2 groups: the first Set alone, then the second and third together. -/
theorem groupings_5_18_1 (sh : Show) (s1 s2 s3 : Set) (h : sh.sets = [s1, s2, s3])
    (h1 : s1.len = 5) (h2 : s2.len = 18) (h3 : s3.len = 1) :
    to_page_friendly_set_groupings sh = [[s1], [s2, s3]] := by
  unfold to_page_friendly_set_groupings
  rw [h]
  norm_num [num_pages, num_pagesAux, num_songs, songs_per_page, outerLoop,
    outerLoopAux, innerLoop, trailingLoop, appendLast, h1, h2, h3]

/-- Witness for C5 at the concrete `[5, 18, 1]` Show. -/
theorem groupings_5_18_1_witness :
    to_page_friendly_set_groupings (mkShow [5, 18, 1]) =
      [[mkSet 5], [mkSet 18, mkSet 1]] :=
  groupings_5_18_1 (mkShow [5, 18, 1]) (mkSet 5) (mkSet 18) (mkSet 1)
    rfl (by decide) (by decide) (by decide)

/-- Counterexample to C6: classifying/partitioning a Show with zero Sets does
NOT fail fast — the partitioner silently returns a single empty group and the
classifier returns SINGLE, exactly what the claim says never happens. -/
theorem zero_sets_silent_single_cex :
    to_page_friendly_set_groupings (mkShow []) = [[]] ∧
    classify_layout (mkShow []) = LayoutType.SINGLE := by decide

/-- C6 (amended): classifying or partitioning a Show with zero Sets is not a
precondition failure in the code: `to_page_friendly_set_groupings` returns a
single empty group and `classify_layout` returns SINGLE. -/
theorem zero_sets_behavior (sh : Show) (h : sh.sets = []) :
    to_page_friendly_set_groupings sh = [[]] ∧
    classify_layout sh = LayoutType.SINGLE := by
  have hg : to_page_friendly_set_groupings sh = [[]] := by
    unfold to_page_friendly_set_groupings
    rw [h]
    norm_num [num_pages, num_pagesAux]
  refine ⟨hg, ?_⟩
  unfold classify_layout
  rw [hg]
  norm_num

/-- Witness for the amended C6 at the empty Show. -/
theorem zero_sets_behavior_witness :
    (mkShow []).sets = [] ∧
    (to_page_friendly_set_groupings (mkShow []) = [[]] ∧
      classify_layout (mkShow []) = LayoutType.SINGLE) :=
  ⟨rfl, zero_sets_behavior (mkShow []) rfl⟩

/-- C2 (amended, classes.py variant): in src/book/classes.py the
classification is derived from the grouping, so `classify_layout` returns
SPREAD exactly when the partitioner produces more than one group, and a
single-group Show classifies as SINGLE.  (The generate.py variant classifies
independently of `find_split_point` and can disagree — see the
counterexample.) -/
theorem classify_iff_groups (sh : Show) :
    (classify_layout sh = LayoutType.SPREAD ↔
      1 < (to_page_friendly_set_groupings sh).length) ∧
    (classify_layout sh = LayoutType.SINGLE ↔
      (to_page_friendly_set_groupings sh).length ≤ 1) := by
  unfold classify_layout
  split <;> rename_i hl
  · simp only [gt_iff_lt] at hl
    refine ⟨by simp [hl], ⟨fun he => absurd he (by simp), fun he => by omega⟩⟩
  · simp only [gt_iff_lt, not_lt] at hl
    refine ⟨⟨fun he => absurd he (by simp), fun he => by omega⟩, by simp [hl]⟩

/-- Lemma for the amended C10: `(n + 1) / p` equals the true ceiling
`(n + p - 1) / p` exactly when `n` is a multiple of `p` or leaves remainder
`p - 1`. -/
theorem succ_div_eq_ceil_iff (n p : Nat) (hp : 2 ≤ p) :
    (n + 1) / p = (n + p - 1) / p ↔ n % p = 0 ∨ n % p = p - 1 := by
  have h0 : 0 < p := by omega
  have hq : p * (n / p) + n % p = n := Nat.div_add_mod n p
  have hr : n % p < p := Nat.mod_lt _ h0
  have e1 : (n + 1) / p = n / p + (n % p + 1) / p := by
    conv_lhs => rw [← hq, Nat.add_assoc]
    rw [Nat.mul_add_div h0]
  have e2 : (n + p - 1) / p = n / p + (n % p + p - 1) / p := by
    have ha : (1:Nat) ≤ n % p + p := by omega
    conv_lhs => rw [← hq, Nat.add_assoc, Nat.add_sub_assoc ha]
    rw [Nat.mul_add_div h0]
  rw [e1, e2]
  by_cases hr0 : n % p = 0
  · rw [hr0]
    have a1 : (0 + 1) / p = 0 := Nat.div_eq_of_lt (by omega)
    have a2 : (0 + p - 1) / p = 0 := Nat.div_eq_of_lt (by omega)
    rw [a1, a2]
    simp [hr0]
  · by_cases hrp : n % p = p - 1
    · rw [hrp]
      have a1 : (p - 1 + 1) / p = 1 := by
        rw [Nat.sub_add_cancel (by omega), Nat.div_self h0]
      have a2 : (p - 1 + p - 1) / p = 1 :=
        Nat.div_eq_of_lt_le (by omega) (by omega)
      rw [a1, a2]
      simp [hrp]
    · have a1 : (n % p + 1) / p = 0 := Nat.div_eq_of_lt (by omega)
      have a2 : (n % p + p - 1) / p = 1 :=
        Nat.div_eq_of_lt_le (by omega) (by omega)
      rw [a1, a2]
      constructor
      · intro he
        omega
      · intro he
        rcases he with he | he
        · exact absurd he hr0
        · exact absurd he hrp

/-- Counterexample to C10: the Show with set sizes `[19, 19, 2]` has
`num_pages = 3` and 40 songs; the code computes `songs_per_page = 13`, but
the ceiling of `40 / 3` is `14`. -/
theorem songs_per_page_not_ceil_cex :
    2 ≤ num_pages (mkShow [19, 19, 2]).sets ∧
    songs_per_page (mkShow [19, 19, 2]).sets ≠
      (num_songs (mkShow [19, 19, 2]).sets + num_pages (mkShow [19, 19, 2]).sets - 1) /
        num_pages (mkShow [19, 19, 2]).sets := by decide

/-- C10 (amended): when the line-capacity simulation estimates
`num_pages ≥ 2`, the computed `songs_per_page` is the +1-biased floor
`(num_songs + 1) / num_pages`; it coincides with the true ceiling exactly
when `num_songs` is a multiple of `num_pages` or leaves remainder
`num_pages - 1` (in particular always when `num_pages = 2`). -/
theorem songs_per_page_floor_bias (sh : Show) (h2 : 2 ≤ num_pages sh.sets) :
    songs_per_page sh.sets = (num_songs sh.sets + 1) / num_pages sh.sets ∧
    (songs_per_page sh.sets =
        (num_songs sh.sets + num_pages sh.sets - 1) / num_pages sh.sets ↔
      num_songs sh.sets % num_pages sh.sets = 0 ∨
        num_songs sh.sets % num_pages sh.sets = num_pages sh.sets - 1) := by
  refine ⟨rfl, ?_⟩
  unfold songs_per_page
  exact succ_div_eq_ceil_iff _ _ h2

/-- Witness for the amended C10 at the Show with set sizes `[5, 18, 1]`
(`num_pages = 2`, 24 songs, `songs_per_page = 12`). -/
theorem songs_per_page_floor_bias_witness :
    2 ≤ num_pages (mkShow [5, 18, 1]).sets ∧
    (songs_per_page (mkShow [5, 18, 1]).sets =
        (num_songs (mkShow [5, 18, 1]).sets + 1) / num_pages (mkShow [5, 18, 1]).sets ∧
      (songs_per_page (mkShow [5, 18, 1]).sets =
          (num_songs (mkShow [5, 18, 1]).sets + num_pages (mkShow [5, 18, 1]).sets - 1) /
            num_pages (mkShow [5, 18, 1]).sets ↔
        num_songs (mkShow [5, 18, 1]).sets % num_pages (mkShow [5, 18, 1]).sets = 0 ∨
          num_songs (mkShow [5, 18, 1]).sets % num_pages (mkShow [5, 18, 1]).sets =
            num_pages (mkShow [5, 18, 1]).sets - 1)) :=
  ⟨by decide, songs_per_page_floor_bias (mkShow [5, 18, 1]) (by decide)⟩

end Classes

namespace Generate

/-- Closed form of the set-summation loop: the sum of the per-set heights
plus one inter-set gap per consecutive pair. -/
theorem sets_height_closed (L : List Set) :
    sets_height L = (L.map estimate_height).sum + SET_GAP * (L.length - 1) := by
  induction L with
  | nil => simp [sets_height]
  | cons s L ih =>
    cases L with
    | nil => simp [sets_height]
    | cons t M =>
      show estimate_height s + SET_GAP + sets_height (t :: M) = _
      rw [ih]
      simp only [List.map_cons, List.sum_cons, List.length_cons,
        Nat.add_sub_cancel, SET_GAP]
      omega

/-- C8: under the metric-based estimator, `classify_layout` returns SINGLE iff
the total estimated height is at most 0.92 of the 500pt budget, COMPACT iff it
lies in (0.92·B, 1.08·B], and SPREAD iff it exceeds 1.08·B (stated with exact
rational arithmetic, `100·H ≤ 92·B` etc.; the doubles `500*0.92 = 460.0` and
`500*1.08 = 540.0` are exact, so this matches the source's float tests). -/
theorem classify_thresholds (sh : Show) :
    (classify_layout sh = LayoutType.SINGLE ↔
      100 * estimate_total_height sh ≤ 92 * PAGE_CONTENT_HEIGHT) ∧
    (classify_layout sh = LayoutType.COMPACT ↔
      92 * PAGE_CONTENT_HEIGHT < 100 * estimate_total_height sh ∧
        100 * estimate_total_height sh ≤ 108 * PAGE_CONTENT_HEIGHT) ∧
    (classify_layout sh = LayoutType.SPREAD ↔
      108 * PAGE_CONTENT_HEIGHT < 100 * estimate_total_height sh) := by
  have hB : PAGE_CONTENT_HEIGHT = 500 := rfl
  have e1 : PAGE_CONTENT_HEIGHT * 92 / 100 = 460 := by norm_num [hB]
  have e2 : PAGE_CONTENT_HEIGHT * 108 / 100 = 540 := by norm_num [hB]
  unfold classify_layout
  rw [e1, e2, hB]
  by_cases h1 : estimate_total_height sh ≤ 460
  · rw [if_pos h1]
    exact ⟨⟨fun _ => by omega, fun _ => rfl⟩,
      ⟨fun he => absurd he (by simp), fun he => (False.elim (by omega))⟩,
      ⟨fun he => absurd he (by simp), fun he => (False.elim (by omega))⟩⟩
  · rw [if_neg h1]
    by_cases h2 : estimate_total_height sh ≤ 540
    · rw [if_pos h2]
      exact ⟨⟨fun he => absurd he (by simp), fun he => (False.elim (by omega))⟩,
        ⟨fun _ => by omega, fun _ => rfl⟩,
        ⟨fun he => absurd he (by simp), fun he => (False.elim (by omega))⟩⟩
    · rw [if_neg h2]
      exact ⟨⟨fun he => absurd he (by simp), fun he => (False.elim (by omega))⟩,
        ⟨fun he => absurd he (by simp), fun he => (False.elim (by omega))⟩,
        ⟨fun _ => by omega, fun _ => rfl⟩⟩

/-- Counterexample to C9: for notes whose length is an exact multiple of 55
(here 55 characters), the code's wrapped-line count `len // 55 + 1` is 2, not
the claimed `ceil(len / 55) = 1`: the estimated header height is 108, while
the claimed formula gives 90. -/
theorem header_height_ceil_cex :
    exNotesC9.length % NOTES_CHARS_PER_LINE = 0 ∧ exNotesC9.length ≠ 0 ∧
    estimate_header_height exShowC9 ≠
      HEADER_HEIGHT + NOTES_BASE_HEIGHT +
        ((exNotesC9.length + NOTES_CHARS_PER_LINE - 1) / NOTES_CHARS_PER_LINE - 1) *
          LINE_HEIGHT := by decide

/-- C9 (amended): the total estimated height is the header height plus the
sum of the per-set heights plus one inter-set gap per consecutive pair; for
nonempty notes the header height is the base allowance plus the notes base
allowance plus `(wrapped-line count − 1) × line height`, where the
wrapped-line count is `len(notes) // 55 + 1` — this equals
`ceil(len(notes)/55)` for lengths that are not exact multiples of 55 but is
one greater at exact multiples. -/
theorem height_formulas (sh : Show) :
    estimate_total_height sh =
      estimate_header_height sh +
        ((sh.sets.map estimate_height).sum + SET_GAP * (sh.sets.length - 1)) ∧
    ∀ n, sh.notes = some n → n.length ≠ 0 →
      estimate_header_height sh =
        HEADER_HEIGHT + NOTES_BASE_HEIGHT +
          (n.length / NOTES_CHARS_PER_LINE) * LINE_HEIGHT := by
  constructor
  · unfold estimate_total_height
    rw [sets_height_closed]
  · intro n hn h0
    unfold estimate_header_height
    rw [hn]
    simp only [h0, if_false, ite_false, if_neg h0]
    have hm : max 1 (n.length / NOTES_CHARS_PER_LINE + 1) =
        n.length / NOTES_CHARS_PER_LINE + 1 :=
      Nat.max_eq_right (Nat.le_add_left 1 _)
    rw [hm]
    simp

/-- Witness for the amended C9 at the Show carrying 55-character notes. -/
theorem height_formulas_witness :
    exShowC9.notes = some exNotesC9 ∧ exNotesC9.length ≠ 0 ∧
    estimate_header_height exShowC9 =
      HEADER_HEIGHT + NOTES_BASE_HEIGHT +
        (exNotesC9.length / NOTES_CHARS_PER_LINE) * LINE_HEIGHT ∧
    estimate_total_height exShowC9 =
      estimate_header_height exShowC9 +
        ((exShowC9.sets.map estimate_height).sum +
          SET_GAP * (exShowC9.sets.length - 1)) :=
  ⟨rfl, by decide, (height_formulas exShowC9).2 exNotesC9 rfl (by decide),
    (height_formulas exShowC9).1⟩

/-- Counterexample to C2: in the generate.py variant, a Show with two
single-song Sets classifies SINGLE (estimated height 157 ≤ 460), yet the
`find_split_point` partition produces two groups — classification and
partitioning are computed independently and disagree. -/
theorem classify_split_disagree_cex :
    ¬ ((classify_layout (mkGShow [1, 1]) = LayoutType.SPREAD) ↔
        1 < (spread_groups (mkGShow [1, 1])).length) := by decide

end Generate

/-- Counterexample to C4: in the generate.py (Algorithm A) variant, a Show
with a single 30-song Set classifies SPREAD, and the split derived from
`find_split_point` places the lone Set on page 1 with an EMPTY second group —
the degenerate case does produce an empty second group there. -/
theorem degenerate_split_empty_second_group_cex :
    (mkGShow [30]).sets.length = 1 ∧
    Generate.classify_layout (mkGShow [30]) = Generate.LayoutType.SPREAD ∧
    Generate.spread_groups (mkGShow [30]) = [[mkSet 30], []] := by decide

/-- C4 (amended): a Show with exactly one Set partitions
(`to_page_friendly_set_groupings`) into exactly one group containing that
lone Set regardless of its size, with no empty second group; in the
Algorithm-A variant `find_split_point` degenerates to split point 1 for at
most one Set, and the derived slices place the lone Set alone on page 1
followed by an empty second slice. -/
theorem singleton_show_degenerate :
    (∀ (sh : Classes.Show) (s : Set), sh.sets = [s] →
        Classes.to_page_friendly_set_groupings sh = [[s]]) ∧
    (∀ sh : Generate.Show, sh.sets.length ≤ 1 → Generate.find_split_point sh = 1) ∧
    (∀ (sh : Generate.Show) (s : Set), sh.sets = [s] →
        Generate.spread_groups sh = [[s], []]) := by
  refine ⟨?_, ?_, ?_⟩
  · intro sh s h
    unfold Classes.to_page_friendly_set_groupings
    rw [h]
    by_cases hs : 20 ≤ s.len
    · norm_num [Classes.num_pages, Classes.num_pagesAux, Classes.outerLoop,
        Classes.outerLoopAux, Classes.innerLoop, Classes.trailingLoop, hs]
    · norm_num [Classes.num_pages, Classes.num_pagesAux, hs]
  · intro sh h
    unfold Generate.find_split_point
    rw [if_pos h]
  · intro sh s h
    simp [Generate.spread_groups, Generate.find_split_point, h]

/-- Witness for the amended C4: a 25-song single-set Show partitions to one
group; a 30-song single-set Show gives split point 1 and slices
`[[set], []]`. -/
theorem singleton_show_degenerate_witness :
    Classes.to_page_friendly_set_groupings (mkShow [25]) = [[mkSet 25]] ∧
    Generate.find_split_point (mkGShow [30]) = 1 ∧
    Generate.spread_groups (mkGShow [30]) = [[mkSet 30], []] :=
  ⟨singleton_show_degenerate.1 (mkShow [25]) (mkSet 25) rfl,
    singleton_show_degenerate.2.1 (mkGShow [30]) (by decide),
    singleton_show_degenerate.2.2 (mkGShow [30]) (mkSet 30) rfl⟩

end Book
